import Mathlib

/-!
Verification development for the Paul's Pantry backend (`server.js` and its
companion source variants).  The definitions below are a shallow embedding of
the repository's replenishment-estimation logic (`getItemsRunningLow`,
`getRecentlyPurchased`, `getDaysUntilNeeded`), of the `/api/process-response`
reconciliation pipeline (update loop, insert loop, removal loop), and of the
`processWithClaude` interpreter wrapper.

Modelling conventions:
* Calendar instants are integers counting milliseconds since the Unix epoch
  (a JS `Date` value).  A `DATE` column value is the instant at midnight.
* A nullable SQL column is an `Option`.  The JS coercions that the source
  relies on are made explicit: `new Date(null)` is the epoch, and
  `x + null` coerces `null` to `0` in the duration addition.
* `Math.ceil` of an exact millisecond difference divided by one day is the
  mathematical ceiling, written as negated floor division.
* The external text-generation collaborator is an oracle input: its
  transport outcome is a `FetchResult` value and `JSON.parse` is an
  arbitrary function `String → Option Analysis` (`none` = parse error).
-/

/-- Milliseconds in one day: `1000 * 60 * 60 * 24` from the source. -/
def dayMs : Int := 86400000

/-- Source `Math.ceil (a / 86400000)` for an exact integer millisecond difference
`a`, i.e. the ceiling of the rational `a / dayMs` (ceiling = negated floor
of the negation; `Int` division is floor division for a positive divisor). -/
def ceilDivDay (a : Int) : Int := -((-a) / dayMs)

/-- A row of the `items` table (`CREATE TABLE items` in `server.js`):
`id SERIAL, name TEXT NOT NULL, category TEXT, last_purchased DATE (nullable),
estimated_duration_days INTEGER (nullable), status TEXT DEFAULT 'active',
created_at TIMESTAMP`.  The `category` column is carried as an `Option` so
that an insert that supplies no category is representable. -/
structure Item where
  id : Nat
  name : String
  category : Option String
  last_purchased : Option Int
  estimated_duration_days : Option Int
  status : String
  created_at : Int
deriving Repr, DecidableEq

/-- Source `new Date(item.last_purchased)`: a null column yields the epoch. -/
def lastPurchasedMs (lp : Option Int) : Int := lp.getD 0

/-- Source `lastPurchased.getDate() + item.estimated_duration_days`: a null
duration coerces to `0` in the JS addition. -/
def durationDays (d : Option Int) : Int := d.getD 0

/-- Source `nextPurchaseDate`: `setDate(lastPurchased.getDate() + duration)` adds
exactly `duration` calendar days to the purchase date. -/
def nextPurchaseMs (item : Item) : Int :=
  lastPurchasedMs item.last_purchased + durationDays item.estimated_duration_days * dayMs

/-- Source `Math.ceil((nextPurchaseDate - today) / (1000*60*60*24))` from
`getItemsRunningLow` / `getDaysUntilNeeded`. -/
def daysUntilNeeded (item : Item) (today : Int) : Int :=
  ceilDivDay (nextPurchaseMs item - today)

/-- The filter predicate of `getItemsRunningLow`:
`daysUntilNeeded <= 7 && daysUntilNeeded >= 0`. -/
def isRunningLow (item : Item) (today : Int) : Bool :=
  decide (daysUntilNeeded item today ≤ 7) && decide (0 ≤ daysUntilNeeded item today)

/-- Source `getItemsRunningLow(items)` (`server.js` lines 105–115). -/
def getItemsRunningLow (items : List Item) (today : Int) : List Item :=
  items.filter (fun item => isRunningLow item today)

/-- Source `Math.ceil((today - lastPurchased) / (1000*60*60*24))` from
`getRecentlyPurchased` in the frontend source. -/
def daysSincePurchase (item : Item) (today : Int) : Int :=
  ceilDivDay (today - lastPurchasedMs item.last_purchased)

/-- The filter predicate of `getRecentlyPurchased`:
`daysSincePurchase <= 7 && daysSincePurchase >= 0`. -/
def isRecentlyPurchased (item : Item) (today : Int) : Bool :=
  decide (daysSincePurchase item today ≤ 7) && decide (0 ≤ daysSincePurchase item today)

/-- Modelled from the spec: `daysUntilNeeded = ceil((nextPurchaseDate -
referenceDate) / 1 day)` with `nextPurchaseDate = lastPurchased +
estimatedDurationDays` (spec §4.1), stated directly on the two field
values; used to compare the source computation against the spec formula. -/
def daysUntilNeededSpec (lp dur ref : Int) : Int :=
  ceilDivDay (lp + dur * dayMs - ref)

/-- Source `toLowerCase()` (and the lower-casing performed by `ILIKE`), character
by character. -/
def toLowerStr (s : String) : String := ⟨s.data.map Char.toLower⟩

/-- JS `String.prototype.includes` / SQL `LIKE '%pat%'`: `pat` occurs as a
contiguous substring of `s`. -/
def containsSubstr (s pat : String) : Bool :=
  (List.range (s.toList.length + 1)).any (fun i => pat.toList.isPrefixOf (s.toList.drop i))

/-- Source `name ILIKE '%token%'` (also `i.name.toLowerCase().includes(...)`):
case-insensitive substring containment. -/
def nameMatchesRemoval (itemName token : String) : Bool :=
  containsSubstr (toLowerStr itemName) (toLowerStr token)

/-- The update-loop fallback match (`server.js` lines 444–447):
`i.name.toLowerCase().includes(u) || u.includes(i.name.toLowerCase())`. -/
def updateNameMatch (itemName updName : String) : Bool :=
  containsSubstr (toLowerStr itemName) (toLowerStr updName) ||
    containsSubstr (toLowerStr updName) (toLowerStr itemName)

/-- JS truthiness of an optional number: `if (update.itemId)` is false for
`undefined` and for `0`. -/
def truthyNat (x : Option Nat) : Option Nat :=
  match x with
  | some 0 => none
  | x => x

/-- JS truthiness of an optional string: false for `undefined` and `""`. -/
def truthyStr (x : Option String) : Option String :=
  match x with
  | some "" => none
  | x => x

/-- One entry of `claudeResponse.updates`. -/
structure UpdateEntry where
  itemId : Option Nat
  itemName : Option String
  newLastPurchased : Option Int
  newDurationDays : Option Int
  reason : String
deriving Repr, DecidableEq

/-- One entry of `claudeResponse.newItems`. -/
structure NewItemEntry where
  itemName : String
  category : Option String
  lastPurchased : Option Int
  durationDays : Option Int
  reason : String
deriving Repr, DecidableEq

/-- One entry of `claudeResponse.removeItems`. -/
structure RemoveEntry where
  itemName : String
  reason : String
deriving Repr, DecidableEq

/-- The change-set contract between interpreter and reconciliation. -/
structure ChangeSet where
  updates : List UpdateEntry
  newItems : List NewItemEntry
  removeItems : List RemoveEntry
deriving Repr, DecidableEq

/-- The empty change-set `updates: [], newItems: [], removeItems: []`. -/
def emptyChangeSet : ChangeSet := ⟨[], [], []⟩

/-- The persisted state: all rows of the `items` table (active and deleted)
plus the `SERIAL` sequence counter that issues the next id. -/
structure DB where
  rows : List Item
  nextId : Nat
deriving Repr, DecidableEq

/-- Source query `SELECT * FROM items WHERE status = 'active'`. -/
def activeItems (rows : List Item) : List Item :=
  rows.filter (fun item => item.status = "active")

/-- Target resolution of one update entry (`server.js` lines 434–456):
by id when `update.itemId` is truthy, otherwise the first item of the
active snapshot whose name fuzzily matches a truthy `update.itemName`. -/
def resolvedId (snapshot : List Item) (u : UpdateEntry) : Option Nat :=
  match truthyNat u.itemId with
  | some id => some id
  | none =>
    match truthyStr u.itemName with
    | some nm => (snapshot.find? (fun i => updateNameMatch i.name nm)).map (fun i => i.id)
    | none => none

/-- Source `UPDATE items SET last_purchased = $1, estimated_duration_days = $2
WHERE id = $3`: both columns are always written (an absent JS field is
passed as SQL `NULL`); every other column is untouched. -/
def setFields (st : List Item) (id : Nat) (lp dd : Option Int) : List Item :=
  st.map (fun it =>
    if it.id = id then
      { it with last_purchased := lp, estimated_duration_days := dd }
    else it)

/-- One iteration of the update loop. -/
def applyUpdate (snapshot : List Item) (st : List Item) (u : UpdateEntry) : List Item :=
  match resolvedId snapshot u with
  | some id => setFields st id u.newLastPurchased u.newDurationDays
  | none => st

/-- The update loop: entries applied in order against the fixed active
snapshot fetched before the loop. -/
def applyUpdates (snapshot : List Item) (st : List Item) (us : List UpdateEntry) : List Item :=
  us.foldl (applyUpdate snapshot) st

/-- Source `INSERT INTO items (name, category, last_purchased,
estimated_duration_days) VALUES ($1,$2,$3,$4)`: the entry's fields are
passed through verbatim (absent fields become `NULL`), `status` takes the
schema default `'active'`, `created_at` the current timestamp, and the
`SERIAL` sequence issues one id. -/
def insertItem (db : DB) (e : NewItemEntry) (now : Int) : DB :=
  let newRow : Item :=
    { id := db.nextId, name := e.itemName, category := e.category,
      last_purchased := e.lastPurchased, estimated_duration_days := e.durationDays,
      status := "active", created_at := now }
  { rows := db.rows ++ [newRow], nextId := db.nextId + 1 }

/-- The insert loop. -/
def applyInserts (db : DB) (es : List NewItemEntry) (now : Int) : DB :=
  es.foldl (fun d e => insertItem d e now) db

/-- Source `UPDATE items SET status = 'deleted' WHERE name ILIKE '%name%'`: every
row whose name contains the token case-insensitively — with no status
filter — has its status set to `'deleted'`. -/
def applyRemoval (st : List Item) (r : RemoveEntry) : List Item :=
  st.map (fun it =>
    if nameMatchesRemoval it.name r.itemName then { it with status := "deleted" } else it)

/-- The removal loop. -/
def applyRemovals (st : List Item) (rs : List RemoveEntry) : List Item :=
  rs.foldl applyRemoval st

/-- The `/api/process-response` pipeline (`server.js` lines 421–499):
fetch the active snapshot, apply the update loop, then the insert loop,
then the removal loop. -/
def applyChangeSet (db : DB) (cs : ChangeSet) (now : Int) : DB :=
  let snapshot := activeItems db.rows
  let rows1 := applyUpdates snapshot db.rows cs.updates
  let db2 := applyInserts { rows := rows1, nextId := db.nextId } cs.newItems now
  { rows := applyRemovals db2.rows cs.removeItems, nextId := db2.nextId }

/-- The parsed JSON document expected from the collaborator; each field is
optional because the source reads `analysis.updates || []` etc. -/
structure Analysis where
  updates : Option (List UpdateEntry)
  newItems : Option (List NewItemEntry)
  removeItems : Option (List RemoveEntry)

/-- Outcome of the `fetch` round-trip to the collaborator: either the
promise rejects (network failure) or an HTTP response arrives with its
`ok` flag, status code, and body text. -/
inductive FetchResult where
  | transportError : FetchResult
  | httpResponse (ok : Bool) (status : Nat) (text : String) : FetchResult
deriving Repr, DecidableEq

/-- Leading `\s*` removal after a fence marker. -/
def stripLeadingWs (s : String) : String := s.dropWhile Char.isWhitespace

/-- Source regex replacement removing a trailing code fence: strip the fence
together with the whitespace run before it, when present. -/
def stripTrailingFence (s : String) : String :=
  if s.endsWith "```" then (s.dropRight 3).dropRightWhile Char.isWhitespace else s

/-- The Markdown code-fence stripping of `processWithClaude`
(`server.js` lines 277–283): trim, strip a leading ```` ```json ```` fence,
then strip a leading bare ```` ``` ```` fence, removing the matching
trailing fence each time. -/
def cleanText (raw : String) : String :=
  let t := raw.trim
  let t := if t.startsWith "```json" then stripTrailingFence (stripLeadingWs (t.drop 7)) else t
  let t := if t.startsWith "```" then stripTrailingFence (stripLeadingWs (t.drop 3)) else t
  t

/-- Source `processWithClaude(response, items)` (`server.js` lines 150–303).
`apiKey` is `process.env.ANTHROPIC_API_KEY` (unset or empty is falsy);
`parse` is the `JSON.parse` oracle; `fr` the `fetch` outcome.  The
function is total by construction, mirroring the source's outer
`try/catch` that converts every thrown error into the empty change-set;
`response` and `items` feed only the prompt and cannot influence the
missing-key branch. -/
def processWithClaude (apiKey : Option String) (response : String) (items : List Item)
    (parse : String → Option Analysis) (fr : FetchResult) : ChangeSet :=
  match truthyStr apiKey with
  | none => emptyChangeSet
  | some _ =>
    match fr with
    | FetchResult.transportError => emptyChangeSet
    | FetchResult.httpResponse ok _ text =>
      if ok = false then emptyChangeSet
      else
        match parse (cleanText text) with
        | none => emptyChangeSet
        | some a =>
          { updates := a.updates.getD [], newItems := a.newItems.getD [],
            removeItems := a.removeItems.getD [] }

/-- Sample item mirroring the seeded `['Dog food', 'Pet', ...]` row, with
`last_purchased` at the epoch for concrete evaluation. -/
def itemDog : Item :=
  { id := 1, name := "Dog food", category := some "Pet", last_purchased := some 0,
    estimated_duration_days := some 90, status := "active", created_at := 0 }

/-- An update entry that supplies a new purchase date but no duration. -/
def updDogOrdered : UpdateEntry :=
  { itemId := some 1, itemName := none, newLastPurchased := some 864000000,
    newDurationDays := none, reason := "user said dog food ordered" }

/-- A new-item entry that supplies neither duration nor purchase date. -/
def entryBread : NewItemEntry :=
  { itemName := "Bread", category := some "Food", lastPurchased := none,
    durationDays := none, reason := "user mentioned bread" }

/-- An item whose duration column is null and whose purchase date is the
reference instant. -/
def itemCandles : Item :=
  { id := 1, name := "Candles", category := some "House", last_purchased := some 0,
    estimated_duration_days := none, status := "active", created_at := 0 }

/-- An item whose `last_purchased` column is null. -/
def itemNullDate : Item :=
  { id := 1, name := "Dog food", category := some "Pet", last_purchased := none,
    estimated_duration_days := some 30, status := "active", created_at := 0 }

/-- Sample item for the fallback-heuristic scenario. -/
def itemRoll : Item :=
  { id := 2, name := "Toilet roll", category := some "House", last_purchased := some 0,
    estimated_duration_days := some 30, status := "active", created_at := 0 }

/-- Sample item mirroring the seeded `['Nappies', 'Baby', ...]` row with its
14-day duration, `last_purchased` at the epoch. -/
def itemNappies : Item :=
  { id := 3, name := "Nappies", category := some "Baby", last_purchased := some 0,
    estimated_duration_days := some 14, status := "active", created_at := 0 }

/-- Helper: the empty removal token matches every name (SQL `ILIKE '%%'`). -/
theorem nameMatchesRemoval_empty_tok (n : String) : nameMatchesRemoval n "" = true := by
  simp only [nameMatchesRemoval, containsSubstr, toLowerStr, List.any_eq_true, List.mem_range]
  exact ⟨0, Nat.succ_pos _, by simp [List.isPrefixOf]⟩

/-- Claim C1: for an item with a set `lastPurchased` and a positive
`estimatedDurationDays`, membership in `getItemsRunningLow` is equivalent
to `0 ≤ daysUntilNeeded ≤ 7`; in particular `daysUntilNeeded = 7`
classifies as running low while `8` and `-1` do not. -/
theorem runningLow_iff_window (items : List Item) (item : Item) (today : Int)
    (h1 : item.last_purchased.isSome = true)
    (h2 : 0 < durationDays item.estimated_duration_days) :
    (item ∈ getItemsRunningLow items today ↔
      item ∈ items ∧ (0 ≤ daysUntilNeeded item today ∧ daysUntilNeeded item today ≤ 7)) ∧
    (daysUntilNeeded item today = 7 → isRunningLow item today = true) ∧
    (daysUntilNeeded item today = 8 → isRunningLow item today = false) ∧
    (daysUntilNeeded item today = -1 → isRunningLow item today = false) := by
  refine ⟨?_, ?_, ?_, ?_⟩
  · simp only [getItemsRunningLow, List.mem_filter, isRunningLow, Bool.and_eq_true,
      decide_eq_true_eq]
    tauto
  · intro h; simp [isRunningLow, h]
  · intro h; simp [isRunningLow, h]
  · intro h; simp [isRunningLow, h]

/-- Witness for `runningLow_iff_window`: the seeded dog-food item, 88 days
after its purchase (`daysUntilNeeded = 2`). -/
theorem runningLow_iff_window_witness :
    (itemDog.last_purchased.isSome = true ∧ 0 < durationDays itemDog.estimated_duration_days) ∧
    ((itemDog ∈ getItemsRunningLow [itemDog] 7603200000 ↔
      itemDog ∈ [itemDog] ∧
        (0 ≤ daysUntilNeeded itemDog 7603200000 ∧ daysUntilNeeded itemDog 7603200000 ≤ 7)) ∧
    (daysUntilNeeded itemDog 7603200000 = 7 → isRunningLow itemDog 7603200000 = true) ∧
    (daysUntilNeeded itemDog 7603200000 = 8 → isRunningLow itemDog 7603200000 = false) ∧
    (daysUntilNeeded itemDog 7603200000 = -1 → isRunningLow itemDog 7603200000 = false)) :=
  ⟨⟨by decide, by decide⟩,
    runningLow_iff_window [itemDog] itemDog 7603200000 (by decide) (by decide)⟩

/-- Claim C2: the source day computation equals the spec formula
`ceil((lastPurchased + duration·day − reference) / day)` at every
reference instant, and in the concrete scenario `lastPurchased = today −
10 days`, `duration = 14` (with the reference `today` an arbitrary
instant `m + t` inside the day whose midnight is `m`, so that
`lastPurchased = m − 10·day`), the result is exactly `4`. -/
theorem daysUntilNeeded_spec_eq (item : Item) (lp dur m t : Int)
    (hlp : item.last_purchased = some lp)
    (hd : item.estimated_duration_days = some dur)
    (ht0 : 0 ≤ t) (ht1 : t < dayMs) :
    (∀ ref : Int, daysUntilNeeded item ref = daysUntilNeededSpec lp dur ref) ∧
    (lp = m - 10 * dayMs → dur = 14 → daysUntilNeeded item (m + t) = 4) := by
  constructor
  · intro ref
    simp [daysUntilNeeded, daysUntilNeededSpec, nextPurchaseMs, lastPurchasedMs,
      durationDays, hlp, hd]
  · intro e1 e2
    subst e1; subst e2
    simp only [daysUntilNeeded, nextPurchaseMs, lastPurchasedMs, durationDays, hlp, hd,
      Option.getD_some, ceilDivDay]
    simp only [dayMs] at ht1 ⊢
    omega

/-- Witness for `daysUntilNeeded_spec_eq`: the seeded nappies item
(duration 14, purchased at the epoch) with midnight `m = 10` days and
time-of-day `t = 1` ms. -/
theorem daysUntilNeeded_spec_eq_witness :
    (itemNappies.last_purchased = some 0 ∧ itemNappies.estimated_duration_days = some 14 ∧
      (0 : Int) ≤ 1 ∧ (1 : Int) < dayMs) ∧
    ((∀ ref : Int, daysUntilNeeded itemNappies ref = daysUntilNeededSpec 0 14 ref) ∧
      ((0 : Int) = 864000000 - 10 * dayMs → (14 : Int) = 14 →
        daysUntilNeeded itemNappies (864000000 + 1) = 4)) :=
  ⟨⟨by decide, by decide, by decide, by decide⟩,
    daysUntilNeeded_spec_eq itemNappies 0 14 864000000 1 (by decide) (by decide)
      (by decide) (by decide)⟩

/-- Claim C8, code behavior at the failing input: an item whose
`estimated_duration_days` column is null (JS coerces it to `0`) and whose
`last_purchased` equals the reference instant is classified as running
low — the source has no guard disabling classification for zero or
missing durations, contradicting the spec's stated invariant. -/
theorem zeroDuration_classified_low :
    isRunningLow itemCandles 0 = true ∧
    getItemsRunningLow [itemCandles] 0 = [itemCandles] := by decide

/-- Claim C9 counterexample: an item with a null `last_purchased` column is
treated as purchased at the epoch, so with duration 30 it IS running low
at reference instant `epoch + 30` days, and IS recently purchased at
`epoch + 3` days — refuting "both predicates are false at every reference
date". -/
theorem nullLastPurchased_matches_cex :
    isRunningLow itemNullDate 2592000000 = true ∧
    isRecentlyPurchased itemNullDate 259200000 = true := by decide

/-- Claim C9 amended: a null `last_purchased` is coerced to the epoch, so
the item is excluded from the running-low classification at every
reference instant from `(estimatedDurationDays + 1)` days past the epoch
onward, and — independently of its duration — from the recently-purchased
classification at every instant beyond 7 days past the epoch (at
reference dates close to the epoch it can match, per the counterexample);
every realistic reference date therefore excludes such items, but not
literally every date.  Each exclusion carries its own antecedent, so the
7-day bound alone settles recently-purchased at any later instant. -/
theorem nullLastPurchased_excluded_late (item : Item) (ref : Int)
    (hlp : item.last_purchased = none) :
    ((durationDays item.estimated_duration_days + 1) * dayMs ≤ ref →
      isRunningLow item ref = false) ∧
    (7 * dayMs < ref → isRecentlyPurchased item ref = false) := by
  constructor
  · intro h1
    have hx : daysUntilNeeded item ref < 0 := by
      simp only [daysUntilNeeded, nextPurchaseMs, lastPurchasedMs, hlp, Option.getD_none,
        ceilDivDay]
      simp only [dayMs] at h1 ⊢
      omega
    have hnot : ¬ (0 ≤ daysUntilNeeded item ref) := by omega
    simp [isRunningLow, hnot]
  · intro h7
    have hx : 7 < daysSincePurchase item ref := by
      simp only [daysSincePurchase, lastPurchasedMs, hlp, Option.getD_none, ceilDivDay]
      simp only [dayMs] at h7 ⊢
      omega
    have hnot : ¬ (daysSincePurchase item ref ≤ 7) := by omega
    simp [isRecentlyPurchased, hnot]

/-- Witness for `nullLastPurchased_excluded_late`: the null-dated item
(duration 30) at reference instant 10 days past the epoch — the
recently-purchased exclusion holds there from the 7-day bound alone, well
before the running-low antecedent `(30 + 1)` days is reached. -/
theorem nullLastPurchased_excluded_late_witness :
    (itemNullDate.last_purchased = none) ∧
    (((durationDays itemNullDate.estimated_duration_days + 1) * dayMs ≤ 864000000 →
      isRunningLow itemNullDate 864000000 = false) ∧
    (7 * dayMs < 864000000 → isRecentlyPurchased itemNullDate 864000000 = false)) :=
  ⟨by decide, nullLastPurchased_excluded_late itemNullDate 864000000 (by decide)⟩

/-- Claim C6: whenever the collaborator is unconfigured, the transport
fails, the HTTP response is non-2xx (`ok = false`), or the returned text
does not parse as JSON after fence stripping, the interpreter returns the
empty change-set; it is a total function, so no error ever reaches its
caller (the source's outer `try/catch` converts every throw into the
empty change-set). -/
theorem interpreter_fail_open (apiKey : Option String) (response : String)
    (items : List Item) (parse : String → Option Analysis) (fr : FetchResult)
    (h : truthyStr apiKey = none ∨ fr = FetchResult.transportError ∨
      (∃ st tx, fr = FetchResult.httpResponse false st tx) ∨
      (∀ ok st tx, fr = FetchResult.httpResponse ok st tx → parse (cleanText tx) = none)) :
    processWithClaude apiKey response items parse fr = emptyChangeSet := by
  unfold processWithClaude
  rcases h with h | h | ⟨st, tx, h⟩ | h
  · rw [h]
  · subst h; cases hk : truthyStr apiKey <;> rfl
  · subst h; cases hk : truthyStr apiKey <;> simp
  · cases fr with
    | transportError => cases hk : truthyStr apiKey <;> rfl
    | httpResponse ok st tx =>
      have hp := h ok st tx rfl
      cases hk : truthyStr apiKey
      · rfl
      · cases ok
        · rfl
        · simp [hp]

/-- Witness for `interpreter_fail_open`: a configured key with a 200
response whose body fails to parse. -/
theorem interpreter_fail_open_witness :
    processWithClaude (some "k") "hello" [] (fun _ => none)
      (FetchResult.httpResponse true 200 "not json") = emptyChangeSet :=
  interpreter_fail_open (some "k") "hello" [] (fun _ => none)
    (FetchResult.httpResponse true 200 "not json")
    (Or.inr (Or.inr (Or.inr (fun _ _ _ _ => rfl))))

/-- Claim C7 counterexample: with no API key configured, the utterance
"Toilet roll ordered for tomorrow" against an inventory containing
"Toilet roll" produces no update at all — the claimed "ordered"
keyword heuristic does not exist in the missing-key branch, which
returns the empty change-set unconditionally. -/
theorem missingKey_no_heuristic_cex :
    (processWithClaude none "Toilet roll ordered for tomorrow" [itemRoll]
      (fun _ => none) FetchResult.transportError).updates = [] ∧
    ¬ ((processWithClaude none "Toilet roll ordered for tomorrow" [itemRoll]
      (fun _ => none) FetchResult.transportError).updates.length = 1) := by decide

/-- Claim C7 amended: when no external collaborator is configured the
interpreter returns the empty change-set for every utterance and every
item list — no keyword heuristic runs. -/
theorem missingKey_returns_empty (response : String) (items : List Item)
    (parse : String → Option Analysis) (fr : FetchResult) :
    processWithClaude none response items parse fr = emptyChangeSet := rfl

/-- Claim C3 counterexample: the update `updDogOrdered` supplies a new
purchase date but no duration; applying it to `itemDog` (duration 90)
leaves the duration column null instead of the prior 90 — the SQL
statement overwrites both columns unconditionally. -/
theorem update_nulls_absent_field_cex :
    (applyUpdate [itemDog] [itemDog] updDogOrdered).map
      (fun it => it.estimated_duration_days) = [none] ∧
    ¬ ((applyUpdate [itemDog] [itemDog] updDogOrdered).map
      (fun it => it.estimated_duration_days) = [some 90]) := by decide

/-- Claim C3 amended: an applied update entry always overwrites exactly
the `last_purchased` and `estimated_duration_days` columns of its
resolved target with the entry's values (null when the entry omits one),
while `id`, `name`, `category`, `status` and `created_at` always retain
their prior values; every item the entry does not resolve to is wholly
unchanged, and the row count is preserved. -/
theorem applyUpdate_frame (snapshot st : List Item) (u : UpdateEntry)
    (k : Nat) (old : Item) (h : st[k]? = some old) :
    ∃ new, (applyUpdate snapshot st u)[k]? = some new ∧
      new.id = old.id ∧ new.name = old.name ∧ new.category = old.category ∧
      new.status = old.status ∧ new.created_at = old.created_at ∧
      (resolvedId snapshot u ≠ some old.id → new = old) ∧
      (resolvedId snapshot u = some old.id →
        new.last_purchased = u.newLastPurchased ∧
        new.estimated_duration_days = u.newDurationDays) := by
  unfold applyUpdate
  cases hr : resolvedId snapshot u with
  | none =>
    refine ⟨old, h, rfl, rfl, rfl, rfl, rfl, fun _ => rfl, fun hc => ?_⟩
    exact absurd hc (by simp)
  | some id =>
    by_cases hid : old.id = id
    · refine ⟨{ old with last_purchased := u.newLastPurchased, estimated_duration_days := u.newDurationDays }, ?_, rfl, rfl, rfl, rfl, rfl, ?_, ?_⟩
      · simp only [setFields, List.getElem?_map, h]
        simp [hid]
      · intro hne; exact absurd (by rw [hid]) hne
      · intro _; exact ⟨rfl, rfl⟩
    · refine ⟨old, ?_, rfl, rfl, rfl, rfl, rfl, fun _ => rfl, ?_⟩
      · simp only [setFields, List.getElem?_map, h]
        simp [hid]
      · intro he
        injection he with he
        exact absurd he.symm hid

/-- Witness for `applyUpdate_frame`: the dog-food item as both snapshot
and state, updated by `updDogOrdered` at row 0. -/
theorem applyUpdate_frame_witness :
    ([itemDog][0]? = some itemDog) ∧
    (∃ new, (applyUpdate [itemDog] [itemDog] updDogOrdered)[0]? = some new ∧
      new.id = itemDog.id ∧ new.name = itemDog.name ∧ new.category = itemDog.category ∧
      new.status = itemDog.status ∧ new.created_at = itemDog.created_at ∧
      (resolvedId [itemDog] updDogOrdered ≠ some itemDog.id → new = itemDog) ∧
      (resolvedId [itemDog] updDogOrdered = some itemDog.id →
        new.last_purchased = updDogOrdered.newLastPurchased ∧
        new.estimated_duration_days = updDogOrdered.newDurationDays)) :=
  ⟨by decide, applyUpdate_frame [itemDog] [itemDog] updDogOrdered 0 itemDog (by decide)⟩

/-- Helper: a record update that writes `'deleted'` into a row already in
that status is the identity. -/
theorem deleted_update_eq (old : Item) (hs : old.status = "deleted") :
    { old with status := "deleted" } = old := by
  obtain ⟨i, n, c, l, d, s, a⟩ := old
  simp only at hs
  rw [hs]

/-- Helper: after one removal pass, every row whose name matches the
entry's token has status `'deleted'`. -/
theorem applyRemoval_match_deleted (st : List Item) (r : RemoveEntry) :
    ∀ it ∈ applyRemoval st r, nameMatchesRemoval it.name r.itemName = true →
      it.status = "deleted" := by
  intro it hit hm
  simp only [applyRemoval, List.mem_map] at hit
  obtain ⟨old, hold, rfl⟩ := hit
  by_cases hmo : nameMatchesRemoval old.name r.itemName = true
  · simp [hmo]
  · rw [if_neg hmo] at hm ⊢
    exact absurd hm hmo

/-- Helper: a removal pass never changes a row's name and never
resurrects a deleted row, so the invariant "every row matching `tok` is
deleted" survives later removal entries. -/
theorem applyRemoval_keeps_invariant (st : List Item) (r : RemoveEntry) (tok : String)
    (hst : ∀ it ∈ st, nameMatchesRemoval it.name tok = true → it.status = "deleted") :
    ∀ it ∈ applyRemoval st r, nameMatchesRemoval it.name tok = true →
      it.status = "deleted" := by
  intro it hit hm
  simp only [applyRemoval, List.mem_map] at hit
  obtain ⟨old, hold, rfl⟩ := hit
  by_cases hmo : nameMatchesRemoval old.name r.itemName = true
  · simp [hmo]
  · rw [if_neg hmo] at hm ⊢
    exact hst old hold hm

/-- Helper: the matching-rows-are-deleted invariant propagates through
the whole removal loop. -/
theorem applyRemovals_keeps_invariant (rs : List RemoveEntry) (st : List Item) (tok : String)
    (hst : ∀ it ∈ st, nameMatchesRemoval it.name tok = true → it.status = "deleted") :
    ∀ it ∈ applyRemovals st rs, nameMatchesRemoval it.name tok = true →
      it.status = "deleted" := by
  induction rs generalizing st with
  | nil => exact hst
  | cons r rs ih =>
    exact ih (applyRemoval st r) (applyRemoval_keeps_invariant st r tok hst)

/-- Helper: after the removal loop, every row matching any entry of the
loop is deleted. -/
theorem applyRemovals_deletes (rs : List RemoveEntry) (st : List Item) (r : RemoveEntry)
    (hr : r ∈ rs) :
    ∀ it ∈ applyRemovals st rs, nameMatchesRemoval it.name r.itemName = true →
      it.status = "deleted" := by
  induction rs generalizing st with
  | nil => cases hr
  | cons r0 rs ih =>
    rcases List.mem_cons.mp hr with h | h
    · subst h
      exact applyRemovals_keeps_invariant rs (applyRemoval st r) r.itemName
        (applyRemoval_match_deleted st r)
    · exact ih (applyRemoval st r0) h

/-- Claim C4: (i) with well-formed statuses, one removal entry's effect
on the rows equals soft-deleting exactly the still-active rows whose
names contain the token case-insensitively (re-deleting a matching
already-deleted row is a no-op, so resolution is observably against
still-active rows only); (ii) a removal matching nothing leaves the rows
unchanged and the remaining entries of the loop proceed exactly as if it
were absent — no abort; (iii) in the full pipeline insertions precede
removals, so every row matching a removal entry of the change-set —
including a row inserted by that same change-set — ends soft-deleted and
absent from the subsequent active-items query. -/
theorem removal_active_resolution (st : List Item) (r : RemoveEntry)
    (rs : List RemoveEntry) (db : DB) (cs : ChangeSet) (now : Int)
    (hstat : st.all (fun it => decide (it.status = "active" ∨ it.status = "deleted")) = true) :
    applyRemoval st r = st.map (fun old => if old.status = "active" ∧ nameMatchesRemoval old.name r.itemName = true then { old with status := "deleted" } else old) ∧
    (st.all (fun it => !(nameMatchesRemoval it.name r.itemName)) = true →
      applyRemoval st r = st ∧ applyRemovals st (r :: rs) = applyRemovals st rs) ∧
    (∀ r2 ∈ cs.removeItems, ∀ it ∈ (applyChangeSet db cs now).rows,
      nameMatchesRemoval it.name r2.itemName = true →
        it.status = "deleted" ∧ it ∉ activeItems (applyChangeSet db cs now).rows) := by
  refine ⟨?_, ?_, ?_⟩
  · simp only [applyRemoval]
    apply List.map_congr_left
    intro old hold
    have hso := of_decide_eq_true ((List.all_eq_true.mp hstat) old hold)
    by_cases hmo : nameMatchesRemoval old.name r.itemName = true
    · rw [if_pos hmo]
      rcases hso with hs | hs
      · rw [if_pos ⟨hs, hmo⟩]
      · rw [if_neg (fun hc => by rw [hs] at hc; exact absurd hc.1 (by decide))]
        exact deleted_update_eq old hs
    · rw [if_neg hmo, if_neg (fun hc => hmo hc.2)]
  · intro hnone
    have h1 : applyRemoval st r = st := by
      simp only [applyRemoval]
      have hall : ∀ old ∈ st, (if nameMatchesRemoval old.name r.itemName then { old with status := "deleted" } else old) = old := by
        intro old hold
        have hno := (List.all_eq_true.mp hnone) old hold
        rw [Bool.not_eq_true'] at hno
        rw [if_neg (by simp [hno])]
      rw [List.map_congr_left hall]
      simp
    have h2 : applyRemovals st (r :: rs) = applyRemovals st rs := by
      simp only [applyRemovals, List.foldl_cons]
      rw [h1]
    exact ⟨h1, h2⟩
  · intro r2 hr2 it hit hm
    simp only [applyChangeSet] at hit
    have hdel : it.status = "deleted" :=
      applyRemovals_deletes cs.removeItems _ r2 hr2 it hit hm
    refine ⟨hdel, ?_⟩
    intro hmem
    simp only [activeItems, List.mem_filter] at hmem
    have h2 : it.status = "active" := of_decide_eq_true hmem.2
    rw [hdel] at h2
    exact absurd h2 (by decide)

/-- Witness for `removal_active_resolution`: one active row, a
non-matching removal token, and a change-set that inserts "Bread" and
removes it by the token "read". -/
theorem removal_active_resolution_witness :
    ([itemRoll].all (fun it => decide (it.status = "active" ∨ it.status = "deleted")) = true) ∧
    (applyRemoval [itemRoll] ⟨"xyz", "r"⟩ = [itemRoll].map (fun old => if old.status = "active" ∧ nameMatchesRemoval old.name (RemoveEntry.mk "xyz" "r").itemName = true then { old with status := "deleted" } else old) ∧
    ([itemRoll].all (fun it => !(nameMatchesRemoval it.name (RemoveEntry.mk "xyz" "r").itemName)) = true →
      applyRemoval [itemRoll] ⟨"xyz", "r"⟩ = [itemRoll] ∧
      applyRemovals [itemRoll] (⟨"xyz", "r"⟩ :: []) = applyRemovals [itemRoll] []) ∧
    (∀ r2 ∈ (ChangeSet.mk [] [entryBread] [⟨"read", "r"⟩]).removeItems,
      ∀ it ∈ (applyChangeSet ⟨[], 1⟩ ⟨[], [entryBread], [⟨"read", "r"⟩]⟩ 0).rows,
      nameMatchesRemoval it.name r2.itemName = true →
        it.status = "deleted" ∧
        it ∉ activeItems (applyChangeSet ⟨[], 1⟩ ⟨[], [entryBread], [⟨"read", "r"⟩]⟩ 0).rows)) :=
  ⟨by decide,
    removal_active_resolution [itemRoll] ⟨"xyz", "r"⟩ [] ⟨[], 1⟩
      ⟨[], [entryBread], [⟨"read", "r"⟩]⟩ 0 (by decide)⟩

/-- Claim C10: the removal statement deletes every row whose name
contains the token case-insensitively — all matches, not only the first,
and regardless of the row's prior status (an already-deleted match stays
deleted) — changing only the status column; a non-matching row is wholly
unchanged; and the empty token matches every name, so a removal entry
with an empty name token soft-deletes every row of the table in one
pass. -/
theorem removal_deletes_every_match (st : List Item) (r : RemoveEntry)
    (k : Nat) (old : Item) (h : st[k]? = some old) :
    ∃ new, (applyRemoval st r)[k]? = some new ∧
      (nameMatchesRemoval old.name r.itemName = true →
        new = { old with status := "deleted" }) ∧
      (nameMatchesRemoval old.name r.itemName = false → new = old) ∧
      (r.itemName = "" → new.status = "deleted") := by
  refine ⟨if nameMatchesRemoval old.name r.itemName then { old with status := "deleted" } else old, ?_, ?_, ?_, ?_⟩
  · simp [applyRemoval, List.getElem?_map, h]
  · intro hm; rw [if_pos hm]
  · intro hm; rw [if_neg (by simp [hm])]
  · intro he
    have hm : nameMatchesRemoval old.name r.itemName = true := by
      rw [he]; exact nameMatchesRemoval_empty_tok old.name
    rw [if_pos hm]

/-- Witness for `removal_deletes_every_match`: the toilet-roll row
matched by the upper-case token "ROLL" at row 0. -/
theorem removal_deletes_every_match_witness :
    ([itemRoll][0]? = some itemRoll) ∧
    (∃ new, (applyRemoval [itemRoll] ⟨"ROLL", "r"⟩)[0]? = some new ∧
      (nameMatchesRemoval itemRoll.name (RemoveEntry.mk "ROLL" "r").itemName = true →
        new = { itemRoll with status := "deleted" }) ∧
      (nameMatchesRemoval itemRoll.name (RemoveEntry.mk "ROLL" "r").itemName = false →
        new = itemRoll) ∧
      ((RemoveEntry.mk "ROLL" "r").itemName = "" → new.status = "deleted")) :=
  ⟨by decide, removal_deletes_every_match [itemRoll] ⟨"ROLL", "r"⟩ 0 itemRoll (by decide)⟩
